import Mathlib

/-!
Verification of the RNE state-reconciliation pipeline (elu-scraper).

This file gives a shallow embedding of the core of the repository:

* `rne_parser.py`  — the Snapshot Builder (`process_file`, `parse_all_rne_datasets`),
  modelled over already-extracted CSV rows (`Row`); the file/column-header
  resolution layer is outside the model, rows carry the raw cell values.
* `rne_differ.py`  — the Diff Engine (`compute_diff`) and the Snapshot Store
  (`save_state`, `load_state`), the latter over a model of the storage file.
* `sync_rne.py`    — the Orchestrator (`main`, `send_to_webhook`), with the
  network modelled by a predicate `netOk : Nat → Bool` saying whether the
  POST for a given chunk index succeeds.

Python dicts are modelled as association lists (`List (String × _)`) with
first-match `List.lookup`; dict insertion appends at the end and dict update
rewrites the matching entry in place, matching Python's insertion-ordered
dict semantics.
-/

/-- One official (an "élu") as stored per commune:
`{"nom": ..., "prenom": ..., "postes": [...]}` in `rne_parser.process_file`. -/
structure Elu where
  nom : String
  prenom : String
  postes : List String
deriving DecidableEq

/-- One commune record: `{"nom_commune": ..., "elus": {...}}`. -/
structure Commune where
  nom_commune : String
  elus : List (String × Elu)
deriving DecidableEq

/-- A snapshot (`state` in the Python sources): mapping commune INSEE code
to its record, modelled as an insertion-ordered association list. -/
abbrev State := List (String × Commune)

/-- The keys of an association list (a Python dict's key view). -/
def keysOf (l : List (String × α)) : List String :=
  l.map Prod.fst

/-- Models `set(a).union(b)`: each element of `a ++ b` exactly once.
The claims proved below are insensitive to the iteration order of the set. -/
def keyUnion (a b : List String) : List String :=
  (a ++ b).dedup

/-- Models Python `set(a) == set(b)` on lists of strings: mutual membership. -/
def pySetEq (a b : List String) : Bool :=
  a.all (fun x => b.contains x) && b.all (fun x => a.contains x)

/-- Ordered insertion of a string into a list, used to model Python `sorted`. -/
def insertSorted (x : String) : List String → List String
  | [] => [x]
  | y :: ys => if x ≤ y then x :: y :: ys else y :: insertSorted x ys

/-- Insertion sort on strings.  Python's `sorted` is a stable sort; on a
duplicate-free list the result of any comparison sort is the same, so
insertion sort is an exact model of `sorted(list(s))` for a set `s`. -/
def sortStrings (l : List String) : List String :=
  l.foldr insertSorted []

/-- Models `sorted(list(set(l)))` as used for `anciens_postes` /
`nouveaux_postes` in the `MODIFICATION_POSTE` branch of `compute_diff`. -/
def pySortedSet (l : List String) : List String :=
  sortStrings l.dedup

/-- One entry of the `changements` array built by `compute_diff`. -/
structure Changement where
  elu : String
  commune : String
  type_changement : String
  anciens_postes : List String
  nouveaux_postes : List String
deriving DecidableEq

/-- One commune-level report of the diff:
`{"commune_code_insee": ..., "commune_nom": ..., "changements": [...]}`. -/
structure CommuneReport where
  commune_code_insee : String
  commune_nom : String
  changements : List Changement
deriving DecidableEq

/-- The per-official-key body of the inner loop of `compute_diff`
(`rne_differ.py`): `NOUVEL_ELU` when the key is only in the new elus,
`ELU_SORTANT` when only in the old ones, `MODIFICATION_POSTE` when in both
with different role sets, nothing when the role sets agree.  The
`none, none` case is unreachable for keys drawn from the union of the two
key sets (the Python code would raise a `KeyError` there). -/
def eluChange (nom_commune : String) (old_elus new_elus : List (String × Elu))
    (key : String) : Option Changement :=
  match old_elus.lookup key, new_elus.lookup key with
  | none, some ne =>
      some ⟨ne.prenom ++ " " ++ ne.nom, nom_commune, "NOUVEL_ELU", [], ne.postes⟩
  | some oe, none =>
      some ⟨oe.prenom ++ " " ++ oe.nom, nom_commune, "ELU_SORTANT", oe.postes, []⟩
  | some oe, some ne =>
      if pySetEq oe.postes ne.postes then none
      else some ⟨ne.prenom ++ " " ++ ne.nom, nom_commune, "MODIFICATION_POSTE",
                 pySortedSet oe.postes, pySortedSet ne.postes⟩
  | none, none => none

/-- `nom_commune = new_c.get("nom_commune") or old_c.get("nom_commune")`:
the new name unless it is falsy (empty). -/
def commune_nom (old_c new_c : Commune) : String :=
  if new_c.nom_commune = "" then old_c.nom_commune else new_c.nom_commune

/-- The `changements` list `compute_diff` accumulates for one commune. -/
def commune_changes (old_c new_c : Commune) : List Changement :=
  (keyUnion (keysOf old_c.elus) (keysOf new_c.elus)).filterMap
    (eluChange (commune_nom old_c new_c) old_c.elus new_c.elus)

/-- The per-commune body of `compute_diff`'s outer loop: the commune's
report if it has at least one change, nothing otherwise.  An absent commune
defaults to `{"nom_commune": "", "elus": {}}` as in the Python `.get`. -/
def commune_report (old_state new_state : State) (insee : String) :
    Option CommuneReport :=
  let old_c := (old_state.lookup insee).getD ⟨"", []⟩
  let new_c := (new_state.lookup insee).getD ⟨"", []⟩
  let ch := commune_changes old_c new_c
  if ch.isEmpty then none else some ⟨insee, commune_nom old_c new_c, ch⟩

/-- Models `insee_codes.intersection(insee_filter)`. -/
def interCodes (codes f : List String) : List String :=
  codes.filter (fun c => f.contains c)

/-- The commune codes `compute_diff` iterates over: the union of the key
sets of both snapshots, intersected with the filter when the Python guard
`if insee_filter:` is truthy — i.e. when the filter is present AND
non-empty (an empty filter list is falsy and disables the intersection). -/
def insee_codes (old_state new_state : State) (insee_filter : Option (List String)) :
    List String :=
  let codes := keyUnion (keysOf old_state) (keysOf new_state)
  match insee_filter with
  | some f => if f.isEmpty then codes else interCodes codes f
  | none => codes

/-- `compute_diff` of `rne_differ.py`. -/
def compute_diff (old_state new_state : State)
    (insee_filter : Option (List String)) : List CommuneReport :=
  (insee_codes old_state new_state insee_filter).filterMap
    (commune_report old_state new_state)

example :
    compute_diff [("1", ⟨"A", [("K", ⟨"N", "P", ["Maire"]⟩)]⟩)]
      [("1", ⟨"A", [("K", ⟨"N", "P", ["Maire"]⟩)]⟩)] none = [] := by decide

example :
    compute_diff [] [("1", ⟨"A", [("K", ⟨"N", "P", ["Maire"]⟩)]⟩)] none =
      [⟨"1", "A", [⟨"P N", "A", "NOUVEL_ELU", [], ["Maire"]⟩]⟩] := by decide

/-! ## Orchestrator (`sync_rne.py`) -/

/-- `CHUNK_SIZE = 50` in `send_to_webhook`. -/
def CHUNK_SIZE : Nat := 50

/-- `total_chunks = (len(diff_report) + CHUNK_SIZE - 1) // CHUNK_SIZE`. -/
def total_chunks (diff_report : List CommuneReport) : Nat :=
  (diff_report.length + CHUNK_SIZE - 1) / CHUNK_SIZE

/-- The `i`-th chunk `diff_report[50*i : 50*i + 50]` of the sending loop
`for i in range(0, len(diff_report), CHUNK_SIZE)`. -/
def chunk_at (diff_report : List CommuneReport) (i : Nat) : List CommuneReport :=
  (diff_report.drop (CHUNK_SIZE * i)).take CHUNK_SIZE

/-- `send_to_webhook` of `sync_rne.py`.  `netOk i` says whether the HTTP
POST for chunk index `i` succeeds (a `false` models the exception caught by
the chunk loop).  Returns the overall `success_all` flag together with the
list of chunk payloads actually POSTed: every chunk is attempted, a failed
chunk only flips the flag. -/
def send_to_webhook (diff_report : List CommuneReport) (netOk : Nat → Bool) :
    Bool × List (List CommuneReport) :=
  if diff_report.isEmpty then (true, [])
  else
    ((List.range (total_chunks diff_report)).all netOk,
     (List.range (total_chunks diff_report)).map (chunk_at diff_report))

/-- Observable outcome of one run of `main` in `sync_rne.py`: the webhook
payloads sent, the `success` flag (`none` when the run returned early on an
empty diff, before any `success` was computed), whether `save_state` was
called, the persisted baseline after the run (`old_state` when `save_state`
was not called), and whether the "Aucun changement détecté." branch ran. -/
structure RunResult where
  posts : List (List CommuneReport)
  success : Option Bool
  saved : Bool
  final_state : State
  logged_no_changes : Bool
deriving DecidableEq

/-- `main` of `sync_rne.py`, as a function of the freshly parsed snapshot
`new_state`, the loaded baseline `old_state`, and the network behaviour.
Mirrors the source: early `return` on an empty diff (no save), first-run
suppression (`success = True`, nothing sent), otherwise chunked delivery
gating `save_state`. -/
def main_run (old_state new_state : State) (netOk : Nat → Bool) : RunResult :=
  let diff_report := compute_diff old_state new_state none
  let is_first_run := old_state.length == 0
  if diff_report.isEmpty then
    ⟨[], none, false, old_state, true⟩
  else if is_first_run then
    ⟨[], some true, true, new_state, false⟩
  else
    let r := send_to_webhook diff_report netOk
    if r.1 then ⟨r.2, some true, true, new_state, false⟩
    else ⟨r.2, some false, false, old_state, false⟩

/-! ## Snapshot Builder (`rne_parser.py`) -/

/-- One CSV data row after column resolution, carrying the raw cell values
for the logical fields of `process_file` (empty string for an absent
role column, like `row.get(col_fonction, "")`). -/
structure Row where
  insee : String
  nom_commune : String
  nom : String
  prenom : String
  dob : String
  fonction : String
deriving DecidableEq

/-- Python `str.strip()`: drop leading and trailing whitespace.  Defined
over the character list so that it evaluates inside the kernel. -/
def pyStrip (s : String) : String :=
  ⟨((s.data.dropWhile Char.isWhitespace).reverse.dropWhile
      Char.isWhitespace).reverse⟩

/-- Python `str.upper()` (on the alphabets appearing in the data). -/
def pyUpper (s : String) : String :=
  ⟨s.data.map Char.toUpper⟩

/-- `insee = row.get(col_insee, "").strip()`. -/
def rowInsee (r : Row) : String := pyStrip r.insee

/-- `nom = row.get(col_nom, "").strip().upper()`. -/
def rowNom (r : Row) : String := pyUpper (pyStrip r.nom)

/-- `elu_key = f"{nom}|{prenom}|{dob}"`. -/
def rowKey (r : Row) : String :=
  rowNom r ++ "|" ++ pyStrip r.prenom ++ "|" ++ pyStrip r.dob

/-- Role resolution: the stripped role cell if non-empty, else the
category's `default_poste`. -/
def rowPoste (default_poste : String) (r : Row) : String :=
  if pyStrip r.fonction = "" then default_poste else pyStrip r.fonction

/-- In-place update of the (first) entry of key `k` of a Python dict
modelled as an association list; other entries are untouched. -/
def modifyEntry (l : List (String × α)) (k : String) (f : α → α) :
    List (String × α) :=
  l.map (fun p => if p.1 = k then (p.1, f p.2) else p)

/-- `if poste not in state[insee]["elus"][elu_key]["postes"]: ... .append(poste)`. -/
def updElu (poste : String) (e : Elu) : Elu :=
  if poste ∈ e.postes then e else { e with postes := e.postes ++ [poste] }

/-- The updates `process_file` applies to the row's commune record: insert
the official on first sight of its key, then append the resolved role if
not already present.  The commune's `nom_commune` is untouched. -/
def updCommune (key nom prenom poste : String) (c : Commune) : Commune :=
  let elus1 := if (c.elus.lookup key).isSome then c.elus
    else c.elus ++ [(key, ⟨nom, prenom, []⟩)]
  { c with elus := modifyEntry elus1 key (updElu poste) }

/-- The body of the row loop of `process_file`: skip the row when the
stripped commune code or surname is empty; otherwise insert the commune on
first sight (recording the row's commune name), and apply `updCommune` to
the row's commune. -/
def ingestRow (default_poste : String) (state : State) (r : Row) : State :=
  if rowInsee r = "" ∨ rowNom r = "" then state
  else
    let state1 := if (state.lookup (rowInsee r)).isSome then state
      else state ++ [(rowInsee r, ⟨pyStrip r.nom_commune, []⟩)]
    modifyEntry state1 (rowInsee r)
      (updCommune (rowKey r) (rowNom r) (pyStrip r.prenom)
        (rowPoste default_poste r))

/-- `process_file` of `rne_parser.py` over its extracted rows: the Python
function mutates `state` row by row; here the rows are folded over the
state.  (The `filepath` / header-resolution part is outside the model.) -/
def process_file (rows : List Row) (default_poste : String) (state : State) :
    State :=
  rows.foldl (ingestRow default_poste) state

/-- A sequence of extracts, each with its per-category default role label,
processed against one shared state — the calling pattern of
`parse_all_rne_datasets`. -/
def process_files (files : List (String × List Row)) (state : State) : State :=
  files.foldl (fun s f => process_file f.2 f.1 s) state

/-- `parse_all_rne_datasets`: municipal councillors, then mayors, then
arrondissement councillors, each with the source's default role label,
accumulated into one state starting from `{}`. -/
def parse_all_rne_datasets (cm mai ca : List Row) : State :=
  process_files
    [("Conseiller municipal", cm), ("Maire", mai),
     ("Conseiller d\x27arrondissement", ca)] []

/-- `state.get(insee)?.nom_commune`, the observation used to state that a
commune's display name is never overwritten. -/
def nomAt (state : State) (insee : String) : Option String :=
  (state.lookup insee).map Commune.nom_commune

/-- `state.get(insee)?.elus.get(key)?.postes`. -/
def postesAt (state : State) (insee key : String) : Option (List String) :=
  ((state.lookup insee).bind (fun c => c.elus.lookup key)).map Elu.postes

example :
    parse_all_rne_datasets [⟨"1", "A", "Doe", "Jo", "1970", ""⟩] [] [] =
      [("1", ⟨"A", [("DOE|Jo|1970", ⟨"DOE", "Jo", ["Conseiller municipal"]⟩)]⟩)] := by
  decide

/-! ## Snapshot Store (`save_state` / `load_state` of `rne_differ.py`)

The storage file is modelled as `Option (Option Json)`:
`none` — the file does not exist (`os.path.exists` is false);
`some none` — the file exists but its bytes are not a valid JSON document
(`json.load` raises);
`some (some j)` — the file exists and holds the JSON document `j`.
The JSON text encoding itself (`json.dump` / `json.load` on well-formed
documents, an inverse pair of the standard library) is below the level of
this model. -/

/-- The fragment of JSON that snapshots serialize into. -/
inductive Json where
  | str : String → Json
  | arr : List Json → Json
  | obj : List (String × Json) → Json

/-- The JSON object `json.dump` produces for one official's record
(insertion order of the keys as created by `process_file`). -/
def Elu.toJson (e : Elu) : Json :=
  .obj [("nom", .str e.nom), ("prenom", .str e.prenom),
        ("postes", .arr (e.postes.map .str))]

/-- The JSON object for one commune record. -/
def Commune.toJson (c : Commune) : Json :=
  .obj [("nom_commune", .str c.nom_commune),
        ("elus", .obj (c.elus.map (fun p => (p.1, Elu.toJson p.2))))]

/-- The JSON document `json.dump(state, ...)` serializes. -/
def stateToJson (s : State) : Json :=
  .obj (s.map (fun p => (p.1, Commune.toJson p.2)))

/-- Reading a list of JSON strings back. -/
def decodeStrList : List Json → Option (List String)
  | [] => some []
  | .str s :: t => (decodeStrList t).map (s :: ·)
  | _ => none

/-- Reading one official's record back from its JSON object. -/
def decodeElu : Json → Option Elu
  | .obj [("nom", .str n), ("prenom", .str p), ("postes", .arr ps)] =>
      (decodeStrList ps).map (fun l => ⟨n, p, l⟩)
  | _ => none

/-- Reading the entries of a JSON object back through a value decoder. -/
def decodeEntries (dec : Json → Option α) :
    List (String × Json) → Option (List (String × α))
  | [] => some []
  | (k, v) :: t =>
      match dec v, decodeEntries dec t with
      | some a, some r => some ((k, a) :: r)
      | _, _ => none

/-- Reading one commune record back from its JSON object. -/
def decodeCommune : Json → Option Commune
  | .obj [("nom_commune", .str n), ("elus", .obj el)] =>
      (decodeEntries decodeElu el).map (fun l => ⟨n, l⟩)
  | _ => none

/-- Reading a whole snapshot back from the JSON document: the typed view
of the dict `json.load` returns for a document of the snapshot shape. -/
def jsonToState : Json → Option State
  | .obj l => decodeEntries decodeCommune l
  | _ => none

/-- The modelled storage file. -/
abbrev StoredFile := Option (Option Json)

/-- The error `json.load` raises on an unreadable or malformed file,
propagated by `load_state` to its caller. -/
inductive LoadError where
  | corrupt
deriving DecidableEq

/-- `load_state` of `rne_differ.py`: `{}` when the file does not exist,
the parsed document when it does and parses, a propagated error when the
existing file is malformed. -/
def load_state (file : StoredFile) : Except LoadError Json :=
  match file with
  | none => .ok (.obj [])
  | some none => .error .corrupt
  | some (some j) => .ok j

/-- `save_state` of `rne_differ.py`: the resulting storage file content
after a completed save — the serialized snapshot. -/
def save_state (state : State) : StoredFile :=
  some (some (stateToJson state))

/-- The sequence of storage contents visible to a concurrent reader while
`save_state` runs: `open(filepath, "w")` first truncates the target file
in place (no temporary file is involved), so the file momentarily exists
with content that is not a JSON document, and only then does `json.dump`
write the serialization.  (Between those two points, partially written
prefixes are visible as well; the model keeps the two endpoints.) -/
def save_state_visible (state : State) : List StoredFile :=
  [some none, save_state state]

/-! ## Helper lemmas about the association-list dict model -/

theorem lookup_isSome_iff {α : Type} (l : List (String × α)) (k : String) :
    (l.lookup k).isSome = true ↔ k ∈ keysOf l := by
  induction l with
  | nil => simp [keysOf]
  | cons p t ih =>
    obtain ⟨a, b⟩ := p
    by_cases h : k = a
    · subst h; simp [List.lookup_cons, keysOf]
    · have hb : (k == a) = false := by simp [h]
      simp [List.lookup_cons, hb, keysOf, h, ih]

theorem lookup_eq_none_iff {α : Type} (l : List (String × α)) (k : String) :
    l.lookup k = none ↔ k ∉ keysOf l := by
  rw [← lookup_isSome_iff]
  cases l.lookup k <;> simp

theorem lookup_mem {α : Type} {l : List (String × α)} {k : String} {v : α}
    (h : l.lookup k = some v) : (k, v) ∈ l := by
  induction l with
  | nil => simp [List.lookup] at h
  | cons p t ih =>
    obtain ⟨a, b⟩ := p
    by_cases hk : k = a
    · subst hk
      simp [List.lookup_cons] at h
      simp [h]
    · have hb : (k == a) = false := by simp [hk]
      rw [List.lookup_cons, hb] at h
      exact List.mem_cons_of_mem _ (ih h)

theorem mem_keyUnion {a b : List String} {k : String} :
    k ∈ keyUnion a b ↔ k ∈ a ∨ k ∈ b := by
  simp [keyUnion, List.mem_dedup]

theorem nodup_keyUnion (a b : List String) : (keyUnion a b).Nodup :=
  List.nodup_dedup _

theorem lookup_append {α : Type} (l₁ l₂ : List (String × α)) (k : String) :
    (l₁ ++ l₂).lookup k = (l₁.lookup k).or (l₂.lookup k) := by
  induction l₁ with
  | nil => simp
  | cons p t ih =>
    obtain ⟨a, b⟩ := p
    by_cases h : k = a
    · subst h; simp [List.lookup_cons]
    · have hb : (k == a) = false := by simp [h]
      simp [List.lookup_cons, hb, ih]

theorem lookup_modifyEntry_self {α : Type} (l : List (String × α)) (k : String)
    (f : α → α) : (modifyEntry l k f).lookup k = (l.lookup k).map f := by
  induction l with
  | nil => simp [modifyEntry]
  | cons p t ih =>
    obtain ⟨a, b⟩ := p
    by_cases h : a = k
    · subst h
      simp [modifyEntry, List.lookup_cons] at ih ⊢
    · have hb : (k == a) = false := by simp [Ne.symm h]
      simp only [modifyEntry, List.map_cons, if_neg h] at ih ⊢
      rw [List.lookup_cons, List.lookup_cons, hb]
      exact ih

theorem lookup_modifyEntry_ne {α : Type} (l : List (String × α)) (j k : String)
    (f : α → α) (h : j ≠ k) :
    (modifyEntry l k f).lookup j = l.lookup j := by
  induction l with
  | nil => simp [modifyEntry]
  | cons p t ih =>
    obtain ⟨a, b⟩ := p
    by_cases ha : a = k
    · subst ha
      have hb : (j == a) = false := by simp [h]
      simp [modifyEntry, List.lookup_cons, hb] at ih ⊢
      exact ih
    · simp only [modifyEntry, List.map_cons, if_neg ha] at ih ⊢
      rw [List.lookup_cons, List.lookup_cons]
      cases hb : (j == a) with
      | true => rfl
      | false => exact ih

theorem mem_insertSorted {x y : String} {l : List String} :
    y ∈ insertSorted x l ↔ y = x ∨ y ∈ l := by
  induction l with
  | nil => simp [insertSorted]
  | cons a t ih =>
    by_cases h : x ≤ a
    · simp only [insertSorted, if_pos h, List.mem_cons]
    · simp only [insertSorted, if_neg h, List.mem_cons, ih]
      tauto

theorem sorted_insertSorted (x : String) (l : List String)
    (h : l.Sorted (· ≤ ·)) : (insertSorted x l).Sorted (· ≤ ·) := by
  induction l with
  | nil => simp [insertSorted]
  | cons a t ih =>
    rw [List.sorted_cons] at h
    by_cases hx : x ≤ a
    · rw [show insertSorted x (a :: t) = x :: a :: t from if_pos hx,
        List.sorted_cons]
      refine ⟨?_, List.sorted_cons.mpr h⟩
      intro b hb
      rcases List.mem_cons.mp hb with hb | hb
      · exact hb ▸ hx
      · exact le_trans hx (h.1 b hb)
    · rw [show insertSorted x (a :: t) = a :: insertSorted x t from if_neg hx,
        List.sorted_cons]
      refine ⟨?_, ih h.2⟩
      intro b hb
      rcases mem_insertSorted.mp hb with hb | hb
      · exact hb ▸ le_of_not_le hx
      · exact h.1 b hb

theorem sorted_sortStrings (l : List String) :
    (sortStrings l).Sorted (· ≤ ·) := by
  induction l with
  | nil => simp [sortStrings]
  | cons a t ih => exact sorted_insertSorted a (sortStrings t) ih

theorem mem_sortStrings {y : String} {l : List String} :
    y ∈ sortStrings l ↔ y ∈ l := by
  induction l with
  | nil => simp [sortStrings]
  | cons a t ih =>
    show y ∈ insertSorted a (sortStrings t) ↔ _
    rw [mem_insertSorted, ih]
    simp

theorem sorted_pySortedSet (l : List String) :
    (pySortedSet l).Sorted (· ≤ ·) :=
  sorted_sortStrings _

theorem toFinset_pySortedSet (l : List String) :
    (pySortedSet l).toFinset = l.toFinset := by
  ext x
  simp [pySortedSet, mem_sortStrings, List.mem_dedup]

theorem pySetEq_iff (a b : List String) :
    pySetEq a b = true ↔ a.toFinset = b.toFinset := by
  simp only [pySetEq, Bool.and_eq_true, List.all_eq_true, Finset.ext_iff,
    List.mem_toFinset, List.contains_eq_any_beq, List.any_eq_true]
  constructor
  · rintro ⟨h1, h2⟩ x
    constructor
    · intro hx
      obtain ⟨y, hy, hxy⟩ := h1 x hx
      exact (eq_of_beq hxy) ▸ hy
    · intro hx
      obtain ⟨y, hy, hxy⟩ := h2 x hx
      exact (eq_of_beq hxy) ▸ hy
  · intro h
    exact ⟨fun x hx => ⟨x, (h x).1 hx, by simp⟩,
           fun x hx => ⟨x, (h x).2 hx, by simp⟩⟩

/-! ## Claim theorems -/

/-- C5: for every commune of the union, the per-official-key case analysis
of `compute_diff` — iterated over the duplicate-free union of the official
keys, so each key yields at most one entry — produces: for a key present
only in the new elus, exactly the `NOUVEL_ELU` entry with empty previous
roles and the raw new role list; for a key present only in the old elus,
exactly the `ELU_SORTANT` entry with the raw old role list and empty
current roles; for a key present in both, the `MODIFICATION_POSTE` entry
(whose role lists are rendered as sorted, duplicate-free sequences over
the same role sets) exactly when the role lists differ as unordered sets,
and no entry when they agree. -/
theorem C5_per_key_change_kinds (nc : String)
    (old_elus new_elus : List (String × Elu)) (key : String) :
    (keyUnion (keysOf old_elus) (keysOf new_elus)).Nodup
    ∧ (∀ ne, old_elus.lookup key = none → new_elus.lookup key = some ne →
        eluChange nc old_elus new_elus key =
          some ⟨ne.prenom ++ " " ++ ne.nom, nc, "NOUVEL_ELU", [], ne.postes⟩)
    ∧ (∀ oe, old_elus.lookup key = some oe → new_elus.lookup key = none →
        eluChange nc old_elus new_elus key =
          some ⟨oe.prenom ++ " " ++ oe.nom, nc, "ELU_SORTANT", oe.postes, []⟩)
    ∧ (∀ oe ne, old_elus.lookup key = some oe → new_elus.lookup key = some ne →
        (oe.postes.toFinset ≠ ne.postes.toFinset →
           eluChange nc old_elus new_elus key =
             some ⟨ne.prenom ++ " " ++ ne.nom, nc, "MODIFICATION_POSTE",
                   pySortedSet oe.postes, pySortedSet ne.postes⟩
           ∧ (pySortedSet oe.postes).Sorted (· ≤ ·)
           ∧ (pySortedSet ne.postes).Sorted (· ≤ ·)
           ∧ (pySortedSet oe.postes).toFinset = oe.postes.toFinset
           ∧ (pySortedSet ne.postes).toFinset = ne.postes.toFinset)
        ∧ (oe.postes.toFinset = ne.postes.toFinset →
           eluChange nc old_elus new_elus key = none)) := by
  refine ⟨nodup_keyUnion _ _, ?_, ?_, ?_⟩
  · intro ne h1 h2
    simp [eluChange, h1, h2]
  · intro oe h1 h2
    simp [eluChange, h1, h2]
  · intro oe ne h1 h2
    constructor
    · intro hne
      have hb : pySetEq oe.postes ne.postes = false := by
        cases hp : pySetEq oe.postes ne.postes
        · rfl
        · exact absurd ((pySetEq_iff _ _).mp hp) hne
      exact ⟨by simp [eluChange, h1, h2, hb], sorted_pySortedSet _,
        sorted_pySortedSet _, toFinset_pySortedSet _, toFinset_pySortedSet _⟩
    · intro he
      have hb : pySetEq oe.postes ne.postes = true := (pySetEq_iff _ _).mpr he
      simp [eluChange, h1, h2, hb]

/-- The commune `insee` "has the same officials" in both snapshots: the
key sets agree and each shared key carries the same role set (as an
unordered set).  This is the hypothesis of the empty-report-suppression
half of C6. -/
def sameOfficials (oc ncm : Commune) : Prop :=
  (keysOf oc.elus).toFinset = (keysOf ncm.elus).toFinset ∧
  ∀ k ∈ keysOf oc.elus,
    ((oc.elus.lookup k).map Elu.postes).map List.toFinset =
      ((ncm.elus.lookup k).map Elu.postes).map List.toFinset

theorem commune_changes_eq_nil {oc ncm : Commune} (h : sameOfficials oc ncm) :
    commune_changes oc ncm = [] := by
  rw [commune_changes, List.filterMap_eq_nil_iff]
  intro k hk
  have hiff : k ∈ keysOf oc.elus ↔ k ∈ keysOf ncm.elus := by
    constructor <;> intro h1
    · exact List.mem_toFinset.mp (h.1 ▸ List.mem_toFinset.mpr h1)
    · exact List.mem_toFinset.mp (h.1.symm ▸ List.mem_toFinset.mpr h1)
  have hko : k ∈ keysOf oc.elus := by
    rcases mem_keyUnion.mp hk with h1 | h1
    · exact h1
    · exact hiff.mpr h1
  have hkn : k ∈ keysOf ncm.elus := hiff.mp hko
  obtain ⟨oe, hoe⟩ := Option.isSome_iff_exists.mp ((lookup_isSome_iff _ _).mpr hko)
  obtain ⟨ne, hne⟩ := Option.isSome_iff_exists.mp ((lookup_isSome_iff _ _).mpr hkn)
  have hps := h.2 k hko
  rw [hoe, hne] at hps
  have hfs : oe.postes.toFinset = ne.postes.toFinset := by simpa using hps
  have hb : pySetEq oe.postes ne.postes = true := (pySetEq_iff _ _).mpr hfs
  simp [eluChange, hoe, hne, hb]

theorem commune_report_none {old_state new_state : State} {insee : String}
    (h : sameOfficials ((old_state.lookup insee).getD ⟨"", []⟩)
      ((new_state.lookup insee).getD ⟨"", []⟩)) :
    commune_report old_state new_state insee = none := by
  simp [commune_report, commune_changes_eq_nil h]

theorem commune_report_code {old_state new_state : State} {insee : String}
    {r : CommuneReport}
    (h : commune_report old_state new_state insee = some r) :
    r.commune_code_insee = insee := by
  simp only [commune_report] at h
  split at h
  · exact Option.noConfusion h
  · cases h
    rfl

/-- C6: `compute_diff` is a no-op on identical snapshots (for any filter),
and more generally a commune whose official-key set and per-official role
sets agree between the two snapshots contributes no report to the output:
no report carrying its code ever appears. -/
theorem C6_noop_idempotence :
    (∀ (S : State) (f : Option (List String)), compute_diff S S f = [])
    ∧ (∀ (old_state new_state : State) (f : Option (List String))
        (insee : String),
        sameOfficials ((old_state.lookup insee).getD ⟨"", []⟩)
          ((new_state.lookup insee).getD ⟨"", []⟩) →
        ∀ r ∈ compute_diff old_state new_state f,
          r.commune_code_insee ≠ insee) := by
  constructor
  · intro S f
    rw [compute_diff, List.filterMap_eq_nil_iff]
    intro a _
    exact commune_report_none ⟨rfl, fun k _ => rfl⟩
  · intro old_state new_state f insee h r hr hcode
    obtain ⟨a, _, har⟩ := List.mem_filterMap.mp hr
    have ha : a = insee := hcode ▸ (commune_report_code har).symm
    rw [ha, commune_report_none h] at har
    exact Option.noConfusion har

def c6_old : State :=
  [("1", ⟨"A", [("K", ⟨"N", "P", ["Maire"]⟩)]⟩),
   ("2", ⟨"B", [("J", ⟨"M", "Q", ["Maire"]⟩)]⟩)]

def c6_new : State :=
  [("1", ⟨"A", [("K", ⟨"N", "P", ["Maire"]⟩)]⟩),
   ("2", ⟨"B", [("J", ⟨"M", "Q", ["Maire"]⟩), ("J2", ⟨"M2", "Q2", ["Adjoint"]⟩)]⟩)]

def c6_report : CommuneReport :=
  ⟨"2", "B", [⟨"Q2 M2", "B", "NOUVEL_ELU", [], ["Adjoint"]⟩]⟩

/-- Witness for C6 at concrete inputs: the self-diff of a snapshot is
empty, and with commune "1" unchanged between two snapshots the only
emitted report carries the changed commune "2", not "1". -/
theorem C6_witness :
    compute_diff c6_old c6_old none = []
    ∧ c6_report.commune_code_insee ≠ "1" :=
  ⟨C6_noop_idempotence.1 c6_old none,
   C6_noop_idempotence.2 c6_old c6_new none "1" ⟨by decide, by decide⟩
     c6_report (by decide)⟩

def c5_elu : Elu := ⟨"N", "P", ["Maire"]⟩

/-- Witness for C5 at a concrete input: a key present only in the new elus
yields the `NOUVEL_ELU` entry. -/
theorem C5_witness :
    eluChange "C" [] [("K", c5_elu)] "K" =
      some ⟨"P N", "C", "NOUVEL_ELU", [], ["Maire"]⟩ :=
  (C5_per_key_change_kinds "C" [] [("K", c5_elu)] "K").2.1 c5_elu rfl (by decide)

def netAllOk : Nat → Bool := fun _ => true

def netAllFail : Nat → Bool := fun _ => false

/-- C1 (amended): on a run whose computed diff report is empty, `main`
logs "no changes" and performs no delivery call, but returns early WITHOUT
persisting the new snapshot: `save_state` is not called and the stored
baseline remains the old snapshot. -/
theorem C1_empty_diff_no_persist (old_state new_state : State)
    (netOk : Nat → Bool) (h : compute_diff old_state new_state none = []) :
    main_run old_state new_state netOk = ⟨[], none, false, old_state, true⟩ := by
  simp [main_run, h]

/-- Witness for the amended C1 at a concrete input. -/
theorem C1_witness : main_run [] [] netAllOk = ⟨[], none, false, [], true⟩ :=
  C1_empty_diff_no_persist [] [] netAllOk rfl

def c1_old : State := [("1", ⟨"A", [("K", ⟨"N", "P", ["Maire"]⟩)]⟩)]

def c1_new : State := [("1", ⟨"B", [("K", ⟨"N", "P", ["Maire"]⟩)]⟩)]

/-- C1 counterexample: a run whose diff report is empty (here only the
display name of commune "1" changed, which `compute_diff` does not report)
logs "no changes" and performs no delivery, but does NOT persist the newly
built snapshot: `saved` is false and the stored baseline after the run is
the old snapshot, not the new one. -/
theorem C1_counterexample :
    compute_diff c1_old c1_new none = []
    ∧ (main_run c1_old c1_new netAllOk).logged_no_changes = true
    ∧ (main_run c1_old c1_new netAllOk).posts = []
    ∧ (main_run c1_old c1_new netAllOk).saved = false
    ∧ (main_run c1_old c1_new netAllOk).final_state ≠ c1_new := by decide

/-- C2: on a non-first run (non-empty loaded baseline) with a non-empty
diff where at least one chunk POST fails, the orchestrator still attempts
every one of the `total_chunks` chunks (`posts` is the full list of chunk
payloads), reports overall failure, does not call `save_state`, and the
persisted baseline stays the old snapshot. -/
theorem C2_partial_failure_hold (old_state new_state : State)
    (netOk : Nat → Bool) (h_not_first : old_state ≠ [])
    (h_diff : compute_diff old_state new_state none ≠ [])
    (h_fail : ∃ i, i < total_chunks (compute_diff old_state new_state none) ∧
      netOk i = false) :
    (main_run old_state new_state netOk).posts =
      (List.range (total_chunks (compute_diff old_state new_state none))).map
        (chunk_at (compute_diff old_state new_state none))
    ∧ (main_run old_state new_state netOk).posts.length =
        total_chunks (compute_diff old_state new_state none)
    ∧ (main_run old_state new_state netOk).success = some false
    ∧ (main_run old_state new_state netOk).saved = false
    ∧ (main_run old_state new_state netOk).final_state = old_state := by
  obtain ⟨i, hi, hfi⟩ := h_fail
  have hall : (List.range
      (total_chunks (compute_diff old_state new_state none))).all netOk
      = false := by
    rw [List.all_eq_false]
    exact ⟨i, List.mem_range.mpr hi, by simp [hfi]⟩
  have hne : (compute_diff old_state new_state none).isEmpty = false := by
    simp [h_diff]
  have hlen : (old_state.length == 0) = false := by
    simp [h_not_first]
  simp [main_run, send_to_webhook, hne, hlen, hall]

def c2_old : State := [("1", ⟨"A", [("K", ⟨"N", "P", ["Maire"]⟩)]⟩)]

def c2_new : State :=
  [("1", ⟨"A", [("K", ⟨"N", "P", ["Maire"]⟩),
                ("K2", ⟨"N2", "P2", ["Adjoint"]⟩)]⟩)]

/-- Witness for C2 at a concrete input where every POST fails. -/
theorem C2_witness :
    (main_run c2_old c2_new netAllFail).success = some false
    ∧ (main_run c2_old c2_new netAllFail).posts.length =
        total_chunks (compute_diff c2_old c2_new none)
    ∧ (main_run c2_old c2_new netAllFail).saved = false
    ∧ (main_run c2_old c2_new netAllFail).final_state = c2_old := by
  have h := C2_partial_failure_hold c2_old c2_new netAllFail (by decide)
    (by decide) ⟨0, by decide, rfl⟩
  exact ⟨h.2.2.1, h.2.1, h.2.2.2.1, h.2.2.2.2⟩

theorem updCommune_elus_ne_nil (key nom prenom poste : String) (c : Commune) :
    (updCommune key nom prenom poste c).elus ≠ [] := by
  simp only [updCommune]
  split
  case isTrue h =>
    intro hnil
    rw [modifyEntry, List.map_eq_nil_iff] at hnil
    rw [hnil] at h
    simp at h
  case isFalse h =>
    intro hnil
    rw [modifyEntry, List.map_eq_nil_iff] at hnil
    simp at hnil

/-- Every commune record a `process_file` pass ever creates receives an
official in the same step, so a built state never holds a commune with an
empty `elus` dict. -/
theorem elus_ne_nil_ingestRow (dp : String) (state : State) (r : Row)
    (h : ∀ p ∈ state, p.2.elus ≠ []) :
    ∀ p ∈ ingestRow dp state r, p.2.elus ≠ [] := by
  intro p hp
  simp only [ingestRow] at hp
  split at hp
  · exact h p hp
  · split at hp
    case isTrue hs =>
      simp only [modifyEntry, List.mem_map] at hp
      obtain ⟨q, hq, hpq⟩ := hp
      split at hpq
      · rw [← hpq]
        exact updCommune_elus_ne_nil _ _ _ _ _
      · rw [← hpq]
        exact h q hq
    case isFalse hs =>
      simp only [modifyEntry, List.mem_map] at hp
      obtain ⟨q, hq, hpq⟩ := hp
      rcases List.mem_append.mp hq with hq | hq
      · split at hpq
        · rw [← hpq]
          exact updCommune_elus_ne_nil _ _ _ _ _
        · rw [← hpq]
          exact h q hq
      · simp only [List.mem_singleton] at hq
        subst hq
        rw [if_pos rfl] at hpq
        rw [← hpq]
        exact updCommune_elus_ne_nil _ _ _ _ _

theorem elus_ne_nil_process_file (rows : List Row) (dp : String)
    (state : State) (h : ∀ p ∈ state, p.2.elus ≠ []) :
    ∀ p ∈ process_file rows dp state, p.2.elus ≠ [] := by
  induction rows generalizing state with
  | nil => exact h
  | cons r t ih => exact ih _ (elus_ne_nil_ingestRow dp state r h)

theorem elus_ne_nil_process_files (files : List (String × List Row))
    (state : State) (h : ∀ p ∈ state, p.2.elus ≠ []) :
    ∀ p ∈ process_files files state, p.2.elus ≠ [] := by
  induction files generalizing state with
  | nil => exact h
  | cons f t ih => exact ih _ (elus_ne_nil_process_file f.2 f.1 state h)

theorem elus_ne_nil_parse_all (cm mai ca : List Row) :
    ∀ p ∈ parse_all_rne_datasets cm mai ca, p.2.elus ≠ [] :=
  elus_ne_nil_process_files _ _ (by simp)

/-- Against an empty baseline, a built snapshot that mentions at least one
commune produces a non-empty diff (each of its officials is a
`NOUVEL_ELU`). -/
theorem compute_diff_empty_old_ne_nil {new_state : State}
    (hinv : ∀ p ∈ new_state, p.2.elus ≠ []) (hne : new_state ≠ []) :
    compute_diff [] new_state none ≠ [] := by
  intro hdiff
  rw [compute_diff, List.filterMap_eq_nil_iff] at hdiff
  obtain ⟨⟨i, c⟩, rest, hnew⟩ : ∃ p rest, new_state = p :: rest := by
    cases new_state with
    | nil => exact absurd rfl hne
    | cons p rest => exact ⟨p, rest, rfl⟩
  have hik : i ∈ keysOf new_state := by
    rw [hnew]
    exact List.mem_map_of_mem _ (List.mem_cons_self _ _)
  have hmem : i ∈ insee_codes [] new_state none := by
    simp only [insee_codes]
    exact mem_keyUnion.mpr (Or.inr hik)
  have hrep := hdiff i hmem
  obtain ⟨c₀, hc₀⟩ :=
    Option.isSome_iff_exists.mp ((lookup_isSome_iff _ _).mpr hik)
  have helus : c₀.elus ≠ [] := hinv _ (lookup_mem hc₀)
  obtain ⟨⟨k, e⟩, rest2, helus2⟩ : ∃ q r2, c₀.elus = q :: r2 := by
    cases h2 : c₀.elus with
    | nil => exact absurd h2 helus
    | cons q r2 => exact ⟨q, r2, rfl⟩
  have hkk : k ∈ keysOf c₀.elus := by
    rw [helus2]
    exact List.mem_map_of_mem _ (List.mem_cons_self _ _)
  obtain ⟨e₀, he₀⟩ :=
    Option.isSome_iff_exists.mp ((lookup_isSome_iff _ _).mpr hkk)
  have hch : commune_changes ⟨"", []⟩ c₀ ≠ [] := by
    intro hnil
    rw [commune_changes, List.filterMap_eq_nil_iff] at hnil
    have hkmem : k ∈ keyUnion (keysOf (Commune.mk "" []).elus)
        (keysOf c₀.elus) := mem_keyUnion.mpr (Or.inr hkk)
    have h0 := hnil k hkmem
    simp [eluChange, he₀] at h0
  simp only [commune_report, List.lookup_nil, Option.getD_none, hc₀,
    Option.getD_some] at hrep
  split at hrep
  case isTrue h3 => exact hch (List.isEmpty_iff.mp h3)
  case isFalse h3 => exact Option.noConfusion hrep

/-- C3: a first run — empty loaded baseline, non-empty freshly built
snapshot — sends nothing to the webhook, forces `success` to true, and
persists the new snapshot as the baseline. -/
theorem C3_first_run_suppression (cm mai ca : List Row) (netOk : Nat → Bool)
    (hne : parse_all_rne_datasets cm mai ca ≠ []) :
    main_run [] (parse_all_rne_datasets cm mai ca) netOk =
      ⟨[], some true, true, parse_all_rne_datasets cm mai ca, false⟩ := by
  have hdiff : compute_diff [] (parse_all_rne_datasets cm mai ca) none ≠ [] :=
    compute_diff_empty_old_ne_nil (elus_ne_nil_parse_all cm mai ca) hne
  have hie : (compute_diff [] (parse_all_rne_datasets cm mai ca) none).isEmpty
      = false := by simp [hdiff]
  simp [main_run, hie]

def c3_row : Row := ⟨"1", "A", "Doe", "Jo", "1970", ""⟩

/-- Witness for C3 at a concrete input. -/
theorem C3_witness :
    main_run [] (parse_all_rne_datasets [c3_row] [] []) netAllOk =
      ⟨[], some true, true, parse_all_rne_datasets [c3_row] [] [], false⟩ :=
  C3_first_run_suppression [c3_row] [] [] netAllOk (by decide)

def c4_old : State := [("1", ⟨"A", [("K", ⟨"N", "P", ["Maire"]⟩)]⟩)]

def c4_new : State := [("1", ⟨"A", [("K", ⟨"N", "P", ["Maire", "Adjoint"]⟩)]⟩)]

/-- C4 counterexample: while `save_state c4_new` runs over a baseline
holding `c4_old`, the storage passes through a visible intermediate state
— the truncated file left by `open(filepath, "w")` — that is neither the
old nor the new serialized baseline and on which `load_state` fails.  So a
half-written baseline IS visible to a concurrent `load`, and a save that
fails between truncation and write leaves this state rather than the
previous baseline. -/
theorem C4_counterexample :
    some none ∈ save_state_visible c4_new
    ∧ load_state (some none) = Except.error LoadError.corrupt
    ∧ some none ≠ save_state c4_old
    ∧ some none ≠ save_state c4_new :=
  ⟨List.mem_cons_self _ _, rfl, by simp [save_state], by simp [save_state]⟩

/-- C4 (amended): `save_state` replaces the baseline in place — it opens
the target file in write mode (truncating it) and then writes the new
serialization, with no temporary file and no replace step: during every
save an intermediate storage state is visible on which `load_state`
fails, and that intermediate state differs from every previously persisted
baseline (a save erroring after truncation has destroyed, not preserved,
the old baseline). -/
theorem C4_truncate_in_place (prev_state state : State) :
    save_state_visible state = [some none, save_state state]
    ∧ load_state (some none) = Except.error LoadError.corrupt
    ∧ some none ≠ save_state prev_state :=
  ⟨rfl, rfl, by simp [save_state]⟩

/-- C9: `load_state` returns the empty snapshot when no baseline file
exists (never failing in that case), returns the stored document when the
file exists and its content parses, and propagates an error in exactly the
remaining case: the file exists but its content is unreadable as JSON. -/
theorem C9_load_state_missing_vs_corrupt :
    load_state none = Except.ok (Json.obj [])
    ∧ jsonToState (Json.obj []) = some ([] : State)
    ∧ (∀ j : Json, load_state (some (some j)) = Except.ok j)
    ∧ load_state (some none) = Except.error LoadError.corrupt :=
  ⟨rfl, rfl, fun _ => rfl, rfl⟩

/-- C8 (amended): when a restrict-to filter is provided and non-empty,
`compute_diff` considers exactly the union of the commune codes of both
snapshots intersected with the filter, and every emitted report carries a
code belonging to the filter.  (For a provided but EMPTY filter the Python
truthiness guard `if insee_filter:` disables the intersection — see the
counterexample.) -/
theorem C8_filter_nonempty (old_state new_state : State) (f : List String)
    (hf : f ≠ []) :
    insee_codes old_state new_state (some f) =
      interCodes (keyUnion (keysOf old_state) (keysOf new_state)) f
    ∧ ∀ r ∈ compute_diff old_state new_state (some f),
        r.commune_code_insee ∈ f := by
  have hfe : f.isEmpty = false := by simp [hf]
  constructor
  · simp [insee_codes, hfe]
  · intro r hr
    obtain ⟨a, ha, har⟩ := List.mem_filterMap.mp hr
    rw [commune_report_code har]
    simp only [insee_codes, hfe, Bool.false_eq_true, if_false] at ha
    rw [interCodes, List.mem_filter] at ha
    simpa using ha.2

def c8_new : State := [("1", ⟨"A", [("K", ⟨"N", "P", ["Maire"]⟩)]⟩)]

def c8_report : CommuneReport :=
  ⟨"1", "A", [⟨"P N", "A", "NOUVEL_ELU", [], ["Maire"]⟩]⟩

/-- C8 counterexample: with the provided restrict-to set EMPTY, the
truthiness guard disables the intersection entirely: diffing an empty old
snapshot against `c8_new` under the filter `[]` still emits the report for
commune "1", whose code does not belong to the empty restrict-to set. -/
theorem C8_counterexample :
    c8_report ∈ compute_diff [] c8_new (some [])
    ∧ c8_report.commune_code_insee ∉ ([] : List String) := by decide

/-- Witness for the amended C8 at a concrete non-empty filter. -/
theorem C8_witness :
    insee_codes [] c8_new (some ["1"]) =
      interCodes (keyUnion (keysOf ([] : State)) (keysOf c8_new)) ["1"]
    ∧ c8_report.commune_code_insee ∈ ["1"] :=
  ⟨(C8_filter_nonempty [] c8_new ["1"] (by decide)).1,
   (C8_filter_nonempty [] c8_new ["1"] (by decide)).2 c8_report (by decide)⟩

theorem decodeStrList_map_str (l : List String) :
    decodeStrList (l.map Json.str) = some l := by
  induction l with
  | nil => rfl
  | cons a t ih => simp [decodeStrList, ih]

theorem decodeElu_toJson (e : Elu) : decodeElu e.toJson = some e := by
  cases e with
  | mk n p ps => simp [Elu.toJson, decodeElu, decodeStrList_map_str]

theorem decodeEntries_elus (l : List (String × Elu)) :
    decodeEntries decodeElu (l.map (fun p => (p.1, Elu.toJson p.2))) =
      some l := by
  induction l with
  | nil => rfl
  | cons a t ih => simp [decodeEntries, decodeElu_toJson, ih]

theorem decodeCommune_toJson (c : Commune) :
    decodeCommune c.toJson = some c := by
  cases c with
  | mk n el => simp [Commune.toJson, decodeCommune, decodeEntries_elus]

theorem decodeEntries_communes (l : State) :
    decodeEntries decodeCommune (l.map (fun p => (p.1, Commune.toJson p.2))) =
      some l := by
  induction l with
  | nil => rfl
  | cons a t ih => simp [decodeEntries, decodeCommune_toJson, ih]

theorem jsonToState_stateToJson (s : State) :
    jsonToState (stateToJson s) = some s := by
  simp [stateToJson, jsonToState, decodeEntries_communes]

/-- The data-model invariants of a stored snapshot: commune codes are
unique, and the official keys within each commune are unique. -/
def WFState (s : State) : Prop :=
  (keysOf s).Nodup ∧ ∀ p ∈ s, (keysOf p.2.elus).Nodup

/-- C10: persistence is a lossless round trip: for a snapshot whose
structure matches the data model, `load_state` right after `save_state`
succeeds and the stored document decodes back to exactly the saved
snapshot. -/
theorem C10_save_load_roundtrip (s : State) (_h : WFState s) :
    load_state (save_state s) = Except.ok (stateToJson s)
    ∧ jsonToState (stateToJson s) = some s :=
  ⟨rfl, jsonToState_stateToJson s⟩

def c10_state : State := [("1", ⟨"A", [("K", ⟨"N", "P", ["Maire"]⟩)]⟩)]

/-- Witness for C10 at a concrete snapshot. -/
theorem C10_witness :
    load_state (save_state c10_state) = Except.ok (stateToJson c10_state)
    ∧ jsonToState (stateToJson c10_state) = some c10_state :=
  C10_save_load_roundtrip c10_state ⟨by decide, by decide⟩

theorem updCommune_nom (key nom prenom poste : String) (c : Commune) :
    (updCommune key nom prenom poste c).nom_commune = c.nom_commune := rfl

theorem updElu_postes (poste : String) (e : Elu) :
    (updElu poste e).postes =
      if poste ∈ e.postes then e.postes else e.postes ++ [poste] := by
  rw [updElu]
  split <;> rfl

theorem updCommune_lookup_self (key nom prenom poste : String) (c : Commune) :
    (updCommune key nom prenom poste c).elus.lookup key =
      some (updElu poste ((c.elus.lookup key).getD ⟨nom, prenom, []⟩)) := by
  simp only [updCommune]
  rw [lookup_modifyEntry_self]
  by_cases hS : (c.elus.lookup key).isSome = true
  · obtain ⟨e, hl⟩ := Option.isSome_iff_exists.mp hS
    rw [if_pos hS, hl]
    rfl
  · have hl : c.elus.lookup key = none := Option.not_isSome_iff_eq_none.mp hS
    rw [if_neg hS, lookup_append, hl]
    simp [List.lookup_cons]

theorem updCommune_lookup_ne (key nom prenom poste k : String) (c : Commune)
    (hk : k ≠ key) :
    (updCommune key nom prenom poste c).elus.lookup k = c.elus.lookup k := by
  simp only [updCommune]
  rw [lookup_modifyEntry_ne _ _ _ _ hk]
  split
  · rfl
  · rw [lookup_append]
    have hb : (k == key) = false := by simp [hk]
    have hnone : ([(key, (⟨nom, prenom, []⟩ : Elu))].lookup k) = none := by
      simp [List.lookup_cons, hb]
    rw [hnone]
    cases c.elus.lookup k <;> rfl

theorem nomAt_ingestRow (dp : String) (state : State) (r : Row)
    (insee n : String) (h : nomAt state insee = some n) :
    nomAt (ingestRow dp state r) insee = some n := by
  obtain ⟨c, hc, hn⟩ : ∃ c, state.lookup insee = some c ∧ c.nom_commune = n := by
    rw [nomAt] at h
    cases hl : state.lookup insee with
    | none => rw [hl] at h; exact Option.noConfusion h
    | some c => rw [hl] at h; exact ⟨c, rfl, by simpa using h⟩
  simp only [ingestRow]
  split
  · exact h
  · by_cases hi : insee = rowInsee r
    · have hc2 : state.lookup (rowInsee r) = some c := hi ▸ hc
      rw [if_pos (by rw [hc2]; rfl)]
      rw [nomAt, hi, lookup_modifyEntry_self, hc2]
      simp [updCommune_nom, hn]
    · rw [nomAt, lookup_modifyEntry_ne _ _ _ _ hi]
      split
      · exact h
      · rw [lookup_append, hc]
        simp [hn]

theorem nomAt_process_file (rows : List Row) (dp : String) (state : State)
    (insee n : String) (h : nomAt state insee = some n) :
    nomAt (process_file rows dp state) insee = some n := by
  induction rows generalizing state with
  | nil => exact h
  | cons r t ih => exact ih _ (nomAt_ingestRow dp state r insee n h)

theorem nomAt_process_files (files : List (String × List Row)) (state : State)
    (insee n : String) (h : nomAt state insee = some n) :
    nomAt (process_files files state) insee = some n := by
  induction files generalizing state with
  | nil => exact h
  | cons f t ih => exact ih _ (nomAt_process_file f.2 f.1 state insee n h)

theorem nomAt_ingestRow_new (dp : String) (state : State) (r : Row)
    (h1 : rowInsee r ≠ "") (h2 : rowNom r ≠ "")
    (h3 : state.lookup (rowInsee r) = none) :
    nomAt (ingestRow dp state r) (rowInsee r) = some (pyStrip r.nom_commune) := by
  have hg : ¬(rowInsee r = "" ∨ rowNom r = "") := by simp [h1, h2]
  simp only [ingestRow, if_neg hg]
  rw [if_neg (by rw [h3]; simp)]
  rw [nomAt, lookup_modifyEntry_self, lookup_append, h3]
  simp [List.lookup_cons, updCommune_nom]

theorem postesAt_ingestRow_self (dp : String) (state : State) (r : Row)
    (h1 : rowInsee r ≠ "") (h2 : rowNom r ≠ "") :
    postesAt (ingestRow dp state r) (rowInsee r) (rowKey r) =
      some (if rowPoste dp r ∈ (postesAt state (rowInsee r) (rowKey r)).getD []
            then (postesAt state (rowInsee r) (rowKey r)).getD []
            else (postesAt state (rowInsee r) (rowKey r)).getD []
              ++ [rowPoste dp r]) := by
  have hg : ¬(rowInsee r = "" ∨ rowNom r = "") := by simp [h1, h2]
  simp only [ingestRow, if_neg hg]
  by_cases hS : (state.lookup (rowInsee r)).isSome = true
  · obtain ⟨c, hs⟩ := Option.isSome_iff_exists.mp hS
    rw [if_pos hS]
    simp only [postesAt, lookup_modifyEntry_self, hs, Option.map_some',
      Option.some_bind, updCommune_lookup_self, updElu_postes]
    cases hl : c.elus.lookup (rowKey r) with
    | some e => simp [hl]
    | none => simp [hl]
  · have hs : state.lookup (rowInsee r) = none :=
      Option.not_isSome_iff_eq_none.mp hS
    rw [if_neg hS]
    simp only [postesAt, lookup_modifyEntry_self, lookup_append, hs,
      Option.none_or, List.lookup_cons, beq_self_eq_true, Option.map_some',
      Option.some_bind, updCommune_lookup_self, updElu_postes]
    simp

theorem lookup_ingestRow_ne (dp : String) (state : State) (r : Row)
    (j : String) (hj : j ≠ rowInsee r) :
    (ingestRow dp state r).lookup j = state.lookup j := by
  simp only [ingestRow]
  split
  · rfl
  · rw [lookup_modifyEntry_ne _ _ _ _ hj]
    split
    · rfl
    · rw [lookup_append]
      have hb : (j == rowInsee r) = false := by simp [hj]
      have hnone :
          ([(rowInsee r, (⟨pyStrip r.nom_commune, []⟩ : Commune))].lookup j)
            = none := by
        simp [List.lookup_cons, hb]
      rw [hnone]
      cases state.lookup j <;> rfl

theorem postesAt_ingestRow_ne_key (dp : String) (state : State) (r : Row)
    (k : String) (hk : k ≠ rowKey r) :
    postesAt (ingestRow dp state r) (rowInsee r) k =
      postesAt state (rowInsee r) k := by
  simp only [ingestRow]
  split
  · rfl
  · by_cases hS : (state.lookup (rowInsee r)).isSome = true
    · obtain ⟨c, hs⟩ := Option.isSome_iff_exists.mp hS
      rw [if_pos hS]
      simp only [postesAt, lookup_modifyEntry_self, hs, Option.map_some',
        Option.some_bind]
      rw [updCommune_lookup_ne _ _ _ _ _ _ hk]
    · have hs : state.lookup (rowInsee r) = none :=
        Option.not_isSome_iff_eq_none.mp hS
      rw [if_neg hS]
      simp only [postesAt, lookup_modifyEntry_self, lookup_append, hs,
        Option.none_or, List.lookup_cons, beq_self_eq_true, Option.map_some',
        Option.some_bind, updCommune_lookup_ne _ _ _ _ _ _ hk]
      simp

/-- C7: merge semantics of the Snapshot Builder.  (i) Once a commune's
display name is recorded it survives unchanged through any further rows
and further extracts; (ii) on first sight of a commune code the row's
(stripped) commune name is recorded; (iii) ingesting a valid row updates
the row's official so that its role list is unchanged when the resolved
role is already present and is the old list with the role appended at the
end otherwise (first-seen order preserved, starting from `[]` for a new
official); (iv) other communes and (v) other officials of the same commune
are untouched by the row. -/
theorem C7_merge_semantics :
    (∀ (files : List (String × List Row)) (state : State) (insee n : String),
       nomAt state insee = some n →
       nomAt (process_files files state) insee = some n)
    ∧ (∀ (dp : String) (state : State) (r : Row),
        rowInsee r ≠ "" → rowNom r ≠ "" →
        state.lookup (rowInsee r) = none →
        nomAt (ingestRow dp state r) (rowInsee r) =
          some (pyStrip r.nom_commune))
    ∧ (∀ (dp : String) (state : State) (r : Row),
        rowInsee r ≠ "" → rowNom r ≠ "" →
        postesAt (ingestRow dp state r) (rowInsee r) (rowKey r) =
          some (if rowPoste dp r ∈
                  (postesAt state (rowInsee r) (rowKey r)).getD []
                then (postesAt state (rowInsee r) (rowKey r)).getD []
                else (postesAt state (rowInsee r) (rowKey r)).getD []
                  ++ [rowPoste dp r]))
    ∧ (∀ (dp : String) (state : State) (r : Row) (j : String),
        j ≠ rowInsee r → (ingestRow dp state r).lookup j = state.lookup j)
    ∧ (∀ (dp : String) (state : State) (r : Row) (k : String),
        k ≠ rowKey r →
        postesAt (ingestRow dp state r) (rowInsee r) k =
          postesAt state (rowInsee r) k) :=
  ⟨fun files state insee n h => nomAt_process_files files state insee n h,
   fun dp state r h1 h2 h3 => nomAt_ingestRow_new dp state r h1 h2 h3,
   fun dp state r h1 h2 => postesAt_ingestRow_self dp state r h1 h2,
   fun dp state r j hj => lookup_ingestRow_ne dp state r j hj,
   fun dp state r k hk => postesAt_ingestRow_ne_key dp state r k hk⟩

def c7_row : Row := ⟨"1", "A", "Doe", "Jo", "1970", ""⟩

def c7_row2 : Row := ⟨"1", "ZZZ", "Roe", "Al", "1980", "Maire"⟩

def c7_state : State :=
  [("1", ⟨"A", [("DOE|Jo|1970", ⟨"DOE", "Jo", ["Conseiller municipal"]⟩)]⟩)]

/-- Witness for C7 at concrete inputs: a later extract for commune "1"
does not overwrite its recorded name "A"; a first-seen commune records the
row's name; a row's role accrues per the accumulate-if-absent rule; and an
unrelated commune and an unrelated official key are untouched. -/
theorem C7_witness :
    nomAt (process_files [("Maire", [c7_row2])] c7_state) "1" = some "A"
    ∧ nomAt (ingestRow "D" [] c7_row) (rowInsee c7_row) =
        some (pyStrip c7_row.nom_commune)
    ∧ postesAt (ingestRow "D" c7_state c7_row) (rowInsee c7_row)
        (rowKey c7_row) =
        some (if rowPoste "D" c7_row ∈
                (postesAt c7_state (rowInsee c7_row) (rowKey c7_row)).getD []
              then (postesAt c7_state (rowInsee c7_row) (rowKey c7_row)).getD []
              else (postesAt c7_state (rowInsee c7_row) (rowKey c7_row)).getD []
                ++ [rowPoste "D" c7_row])
    ∧ (ingestRow "D" c7_state c7_row).lookup "2" = c7_state.lookup "2"
    ∧ postesAt (ingestRow "D" c7_state c7_row) (rowInsee c7_row) "X" =
        postesAt c7_state (rowInsee c7_row) "X" :=
  ⟨C7_merge_semantics.1 [("Maire", [c7_row2])] c7_state "1" "A" (by decide),
   C7_merge_semantics.2.1 "D" [] c7_row (by decide) (by decide) rfl,
   C7_merge_semantics.2.2.1 "D" c7_state c7_row (by decide) (by decide),
   C7_merge_semantics.2.2.2.1 "D" c7_state c7_row "2" (by decide),
   C7_merge_semantics.2.2.2.2 "D" c7_state c7_row "X" (by decide)⟩
